import Mathlib

/-!
# Verification of the app-graph diff engine (`scripts/graph_diff.py`)

This file gives a shallow embedding of the core of `scripts/graph_diff.py`:
JSON snapshot parsing (`parse_graph`), identity resolution (`resolve_name`),
diff computation (`diff_graphs`) and Markdown rendering
(`render_diff_section`, `render_no_changes`, `render_full_comment`, `main`),
together with theorems settling the specification claims about them.

JSON values are modelled by a first-order inductive type `JsonVal` whose
array and object constructors carry their own cons/nil structure; this keeps
every definition structurally recursive and kernel-reducible.  JSON numbers
are modelled as integers (no claim exercises float payloads), and Python
`dict`s are modelled as insertion-ordered association lists with
last-write-wins update, which is exactly CPython's behaviour.
-/

namespace GraphDiff

/-- A JSON value.  `arrCons`/`arrNil` spell out array structure and
`objCons`/`objNil` object structure (field order is the JSON text order;
`json.loads` collapses duplicate keys last-wins, so objects arising from
parsing have distinct keys). -/
inductive JsonVal where
  | null
  | bool (b : Bool)
  | num (n : Int)
  | str (s : String)
  | arrNil
  | arrCons (hd tl : JsonVal)
  | objNil
  | objCons (k : String) (v tl : JsonVal)
deriving DecidableEq

/-- Python `d.get(k)` on a JSON object: the value under key `k`, or `none`.
Later fields win, mirroring `json.loads` duplicate-key collapse.  On a
non-object value the result is `none` (the Python code only ever calls
`.get` on values it has received as dicts). -/
def jget : JsonVal → String → Option JsonVal
  | .objCons k2 v t, k =>
    match jget t k with
    | some w => some w
    | none => if k2 = k then some v else none
  | _, _ => none

/-- Is this JSON value an object (a Python dict)? -/
def isObjV : JsonVal → Bool
  | .objNil => true
  | .objCons _ _ t => isObjV t
  | _ => false

/-- Turn a JSON array value into a Lean list of its elements. -/
def jarrToList : JsonVal → Option (List JsonVal)
  | .arrNil => some []
  | .arrCons h t => (jarrToList t).map (h :: ·)
  | _ => none

/-- Python `str()` of a JSON scalar, as interpolated by the renderer's
f-strings.  Container values never reach an f-string in the data the
script handles, so they are rendered as an empty placeholder. -/
def pyStr : JsonVal → String
  | .str s => s
  | .num n => toString n
  | .bool true => "True"
  | .bool false => "False"
  | .null => "None"
  | _ => ""

/-- Python truthiness of a JSON value (`if line:` etc.). -/
def pyTruthy : JsonVal → Bool
  | .null => false
  | .bool b => b
  | .num n => decide (n ≠ 0)
  | .str s => decide (s ≠ "")
  | .arrNil => false
  | .objNil => false
  | .arrCons _ _ => true
  | .objCons _ _ _ => true

/-- Insert a field into an already key-sorted object chain, keeping keys
sorted (ascending by `String` order, which is how `json.dumps(...,
sort_keys=True)` orders keys). -/
def insField (k : String) (v : JsonVal) : JsonVal → JsonVal
  | .objCons k2 v2 t =>
    if k ≤ k2 then .objCons k v (.objCons k2 v2 t)
    else .objCons k2 v2 (insField k v t)
  | other => .objCons k v other

/-- Canonical form of a JSON value: object keys sorted recursively, array
order preserved.  Two values have the same `json.dumps(..., sort_keys=True)`
serialisation exactly when their canonical forms are equal; this is the
structural-equality notion `diff_graphs` uses for the `modified` test. -/
def canon : JsonVal → JsonVal
  | .null => .null
  | .bool b => .bool b
  | .num n => .num n
  | .str s => .str s
  | .arrNil => .arrNil
  | .arrCons h t => .arrCons (canon h) (canon t)
  | .objNil => .objNil
  | .objCons k v t => insField k (canon v) (canon t)

/-- Truth of `json.dumps(a, sort_keys=True) == json.dumps(b, sort_keys=True)`. -/
def dumpsEq (a b : JsonVal) : Bool := canon a == canon b

/-- Python dict assignment `m[k] = v` on an association list: replaces the
value in place if the key exists (keeping its position), else appends. -/
def dictInsert (m : List (JsonVal × JsonVal)) (k : JsonVal) (v : JsonVal) :
    List (JsonVal × JsonVal) :=
  match m with
  | [] => [(k, v)]
  | p :: ps => if p.1 = k then (k, v) :: ps else p :: dictInsert ps k v

/-- Python dict lookup `m.get(k)` (keys are unique by construction, so
first match is the match). -/
def dget? (m : List (JsonVal × JsonVal)) (k : JsonVal) : Option JsonVal :=
  match m with
  | [] => none
  | p :: ps => if p.1 = k then some p.2 else dget? ps k

/-- Python `m[k]` where the caller knows the key is present. -/
def dgetD (m : List (JsonVal × JsonVal)) (k : JsonVal) : JsonVal :=
  (dget? m k).getD .null

/-- Python `{**a, **b}`: all of `a` updated by all of `b`; on key
collision `b` (the head snapshot, in the renderer) wins. -/
def dictMerge (a b : List (JsonVal × JsonVal)) : List (JsonVal × JsonVal) :=
  b.foldl (fun m p => dictInsert m p.1 p.2) a

/-- One parsed snapshot: `{"resources": {...}, "connections": [...]}` from
`parse_graph` — a dict from resource key to raw resource record, and the
list of raw `(sourceId, targetId)` pairs. -/
structure Graph where
  resources : List (JsonVal × JsonVal)
  connections : List (JsonVal × JsonVal)
deriving DecidableEq

/-- The empty snapshot `{"resources": {}, "connections": []}`. -/
def emptyGraph : Graph := ⟨[], []⟩

/-- The keys of a snapshot's resource dict (`set(graph["resources"])`). -/
def keysOf (g : Graph) : List JsonVal := g.resources.map Prod.fst

/-- Errors of the parsing phase: `malformed` models a `json.JSONDecodeError`
escaping `json.loads`, `typeErr` models an `AttributeError`/`TypeError`
from using a non-dict/non-list where the code expects one.  Both are fatal
and uncaught in the script. -/
inductive PErr where
  | malformed
  | typeErr
deriving DecidableEq

/-- The resource key: `r.get("id", r.get("name", ""))` — the `id` value
whenever the field is present (even if empty or null), else the `name`
value when present, else `""`. -/
def resKey (r : JsonVal) : JsonVal :=
  (jget r "id").getD ((jget r "name").getD (.str ""))

/-- Build the resource dict: `resources[r.get("id", r.get("name", ""))] = r`
for each record in order (a colliding key is silently overwritten, so the
last record wins). -/
def mkResources (rs : List JsonVal) : List (JsonVal × JsonVal) :=
  rs.foldl (fun m r => dictInsert m (resKey r) r) []

/-- The raw pair `(c.get("sourceId", ""), c.get("targetId", ""))`. -/
def connPair (c : JsonVal) : JsonVal × JsonVal :=
  ((jget c "sourceId").getD (.str ""), (jget c "targetId").getD (.str ""))

/-- Build the connection list: keep exactly the connections whose `type`
is not `"dependsOn"`, as raw endpoint pairs. -/
def mkConns (cs : List JsonVal) : List (JsonVal × JsonVal) :=
  (cs.filter (fun c => !(jget c "type" == some (.str "dependsOn")))).map connPair

/-- Python `data.get(key, [])` followed by iteration: absent means the empty list,
an array means its elements, anything else fails when the loop body calls
`.get` on its elements (modelled as an immediate type error). -/
def listD : Option JsonVal → Except PErr (List JsonVal)
  | none => .ok []
  | some v =>
    match jarrToList v with
    | some xs => .ok xs
    | none => .error .typeErr

/-- The body of `parse_graph` after `json.loads` succeeded: normalise the
document into a `Graph`.  A non-dict document, a non-list `resources` or
`connections` value, or a non-dict element of either list raises in
Python; here that is the `typeErr` outcome. -/
def buildGraph (data : JsonVal) : Except PErr Graph :=
  if isObjV data then
    match listD (jget data "resources") with
    | .error e => .error e
    | .ok rs =>
      match listD (jget data "connections") with
      | .error e => .error e
      | .ok cs =>
        if rs.all isObjV && cs.all isObjV then
          .ok ⟨mkResources rs, mkConns cs⟩
        else .error .typeErr
  else .error .typeErr

/-- The function `parse_graph(raw)` for `raw : str | None`, parameterised by the external
JSON parser `loads` (Python's `json.loads`; `loads s = none` models a parse
failure, which `json.loads` in particular exhibits on the empty document).
`if not raw:` is taken both for `None` and for the empty string, so both
yield the empty snapshot; only a non-empty unparsable document is a fatal
error. -/
def parse_graph (loads : String → Option JsonVal) (raw : Option String) :
    Except PErr Graph :=
  match raw with
  | none => .ok emptyGraph
  | some s =>
    if s = "" then .ok emptyGraph
    else
      match loads s with
      | none => .error .malformed
      | some data => buildGraph data

/-- The raw (pre-filtering) connection records of a document, for stating
what `parse_graph` dropped. -/
def rawConnList (d : JsonVal) : List JsonVal :=
  match listD (jget d "connections") with
  | .ok cs => cs
  | .error _ => []

/-- The raw resource records of a document, in order. -/
def rawResList (d : JsonVal) : List JsonVal :=
  match listD (jget d "resources") with
  | .ok rs => rs
  | .error _ => []

/-! ## Identity resolver (`resolve_name`, lines 65–87) -/

/-- The apostrophe character, written by code point. -/
def sq : Char := Char.ofNat 39

/-- Strip a literal pattern from the front of a character list
(`re.match` anchoring): `some rest` on success. -/
def chopPre : List Char → List Char → Option (List Char)
  | [], s => some s
  | _ :: _, [] => none
  | p :: ps, c :: cs => if c = p then chopPre ps cs else none

/-- A regex `\w` character.  (Python's `\w` also covers non-ASCII word
characters; the references the script sees are ASCII.) -/
def isWordChar (c : Char) : Bool :=
  c.isAlphanum || c = '_'

/-- The literal head of the ARM-expression pattern, `[reference('`. -/
def armPat : List Char := "[reference(".data ++ [sq]

/-- Python `re.match` against the ARM pattern (symbol reference): the captured symbol, if
the string starts with `[reference('` followed by one or more word
characters and a closing `')`. -/
def armMatch (s : String) : Option String :=
  match chopPre armPat s.data with
  | none => none
  | some r =>
    if r.takeWhile isWordChar ≠ [] ∧
        (r.dropWhile isWordChar).take 2 = [sq, ')'] then
      some (String.mk (r.takeWhile isWordChar))
    else none

/-- Python `re.match` against the URL pattern: the captured hostname, if the
string starts with `http://` or `https://` followed by at least one
character other than `:` or `/`. -/
def urlMatch (s : String) : Option String :=
  match chopPre "http".data s.data with
  | none => none
  | some r =>
    match (chopPre "s://".data r).or (chopPre "://".data r) with
    | none => none
    | some r2 =>
      if r2.takeWhile (fun c => c ≠ ':' ∧ c ≠ '/') ≠ [] then
        some (String.mk (r2.takeWhile (fun c => c ≠ ':' ∧ c ≠ '/')))
      else none

/-- Python `res_id.rstrip("/").rsplit("/", 1)[-1]`: drop trailing slashes, then
keep everything after the last remaining slash. -/
def lastSegment (s : String) : String :=
  let stripped := s.data.reverse.dropWhile (fun c => c = '/')
  String.mk (stripped.takeWhile (fun c => c ≠ '/')).reverse

/-- The resolver `resolve_name(res_id, resources)` (lines 65–87), for string references
(the only kind Python's `re.match` accepts without raising).  Note that in
the source both arms of the ARM scan return `sym` and both arms of the URL
scan return `hostname`, which is why the scans appear here as `if`s with
identical branches.  A matched resource's `name` value is returned as its
display string (`pyStr`). -/
def resolve_name (res_id : String) (resources : List (JsonVal × JsonVal)) :
    String :=
  match dget? resources (.str res_id) with
  | some r =>
    match jget r "name" with
    | some v => pyStr v
    | none => res_id
  | none =>
    match armMatch res_id with
    | some sym =>
      if resources.any (fun p => jget p.2 "name" == some (.str sym)) then sym
      else sym
    | none =>
      match urlMatch res_id with
      | some host =>
        if resources.any (fun p => jget p.2 "name" == some (.str host)) then host
        else host
      | none => lastSegment res_id

/-- The resolver as the renderer calls it, on a raw endpoint value.
String endpoints go through `resolve_name`; a non-string endpoint that is
an exact dict key still resolves to its record's name (Python dict
membership is untyped), while a non-string non-key endpoint would raise
`TypeError` inside `re.match` — unreachable for the script's data, and
modelled by its display string. -/
def resolve_disp (v : JsonVal) (resources : List (JsonVal × JsonVal)) :
    String :=
  match v with
  | .str s => resolve_name s resources
  | v =>
    match dget? resources v with
    | some r =>
      match jget r "name" with
      | some w => pyStr w
      | none => pyStr v
    | none => pyStr v

/-! ## Diff engine (`diff_graphs`, lines 92–120) -/

/-- Python `common = base_ids & head_ids` (as the list of base keys also present in
head; all diff sets are Python `set`s, so only membership matters). -/
def commonKeys (base head : Graph) : List JsonVal :=
  (keysOf base).filter (fun k => decide (k ∈ keysOf head))

/-- The keys of `common` whose two records differ under
`json.dumps(..., sort_keys=True)` comparison. -/
def modifiedKeys (base head : Graph) : List JsonVal :=
  (commonKeys base head).filter
    (fun k => !(dumpsEq (dgetD base.resources k) (dgetD head.resources k)))

/-- The result of `diff_graphs`: six Python sets, modelled as lists whose
membership is the set membership. -/
structure DiffResult where
  added : List JsonVal
  removed : List JsonVal
  modified : List JsonVal
  unchanged : List JsonVal
  added_conns : List (JsonVal × JsonVal)
  removed_conns : List (JsonVal × JsonVal)
deriving DecidableEq

/-- The diff `diff_graphs(base, head)` (lines 92–120): plain set differences over
resource keys and raw connection pairs, `modified` by canonical structural
equality on the common keys, `unchanged = common - modified`. -/
def diff_graphs (base head : Graph) : DiffResult where
  added := (keysOf head).filter (fun k => decide (k ∉ keysOf base))
  removed := (keysOf base).filter (fun k => decide (k ∉ keysOf head))
  modified := modifiedKeys base head
  unchanged :=
    (commonKeys base head).filter (fun k => decide (k ∉ modifiedKeys base head))
  added_conns :=
    (head.connections.filter (fun p => decide (p ∉ base.connections))).dedup
  removed_conns :=
    (base.connections.filter (fun p => decide (p ∉ head.connections))).dedup

/-! ## Markdown rendering (lines 125–187) and the main flow (lines 192–219) -/

/-- Python `sep.join(parts)`. -/
def pyJoin (sep : String) : List String → String
  | [] => ""
  | [x] => x
  | x :: xs => x ++ sep ++ pyJoin sep xs

/-- Rank of a JSON value's type, used to make the render-time sort total.
(Python `sorted` raises `TypeError` on mixed-type keys; the keys the script
sorts are all strings, where this order is exactly Python's.) -/
def jrank : JsonVal → Nat
  | .null => 0
  | .bool _ => 1
  | .num _ => 2
  | .str _ => 3
  | .arrNil => 4
  | .arrCons _ _ => 4
  | .objNil => 5
  | .objCons _ _ _ => 5

/-- Comparison used by `sorted(...)` over resource keys: Python string
order (code-point lexicographic) on strings, numeric order on numbers. -/
def jsonLe (a b : JsonVal) : Bool :=
  match a, b with
  | .str x, .str y => decide (x ≤ y)
  | .num x, .num y => decide (x ≤ y)
  | .bool x, .bool y => !x || y
  | _, _ => decide (jrank a ≤ jrank b)

/-- Comparison used by `sorted(...)` over connection pairs: Python tuple
order, first component then second. -/
def pairLe (p q : JsonVal × JsonVal) : Bool :=
  if p.1 = q.1 then jsonLe p.2 q.2 else jsonLe p.1 q.1

/-- Insert into an already sorted list (`le x y` meaning x may precede y). -/
def insertBy (le : α → α → Bool) (x : α) : List α → List α
  | [] => [x]
  | y :: ys => if le x y then x :: y :: ys else y :: insertBy le x ys

/-- Python `sorted(...)`: insertion sort under `le`. -/
def sortBy (le : α → α → Bool) : List α → List α
  | [] => []
  | x :: xs => insertBy le x (sortBy le xs)

/-- One pass of Python `s.replace(old, new)` over a character list.  The
`Nat` argument is fuel (the caller passes the list length, and every step
consumes at least one character when `old` is non-empty, the only way the
script uses `replace`); it only makes the recursion structural. -/
def replChars (old new : List Char) : Nat → List Char → List Char
  | _, [] => []
  | 0, l => l
  | fuel + 1, c :: cs =>
    match chopPre old (c :: cs) with
    | some rest => new ++ replChars old new fuel rest
    | none => c :: replChars old new fuel cs

/-- Python `s.replace(old, new)` (all non-overlapping occurrences, left to
right). -/
def pyReplace (s old new : String) : String :=
  String.mk (replChars old.data new.data s.data.length s.data)

/-- Python `res.get("type", "").rsplit("/", 1)[-1]`: the part of the type string
after its last `/` (no trailing-slash strip here, unlike `resolve_name`). -/
def afterLastSlash (s : String) : String :=
  String.mk (s.data.reverse.takeWhile (fun c => c ≠ '/')).reverse

/-- The label `resource_label(res)` (lines 52–62): bold name and type plus an
optional `file:line` part.  A non-string `type` value would raise in
Python's `rsplit`; the script's records carry string types, and other
shapes fall back to the empty type display. -/
def resource_label (res : JsonVal) : String :=
  let name := (jget res "name").getD (.str "?")
  let rtype :=
    match jget res "type" with
    | some (.str t) => afterLastSlash t
    | _ => ""
  let loc := (jget res "sourceLocation").getD .objNil
  let file := (jget loc "file").getD (.str "")
  let line := (jget loc "line").getD (.str "")
  let parts := ["**" ++ pyStr name ++ "**", "`" ++ rtype ++ "`"]
  let parts :=
    if pyTruthy file then
      parts ++ [if pyTruthy line then pyStr file ++ ":" ++ pyStr line
                else pyStr file]
    else parts
  pyJoin " — " parts

/-- The truthiness test on line 131: any added/removed/modified resource or
any added/removed connection. -/
def hasChanges (d : DiffResult) : Bool :=
  !(d.added.isEmpty && d.removed.isEmpty && d.modified.isEmpty &&
    d.added_conns.isEmpty && d.removed_conns.isEmpty)

/-- The pieces of the trailing summary line (lines 163–171): one count per
*non-empty* set, in the fixed order added, removed, modified, unchanged;
an empty set contributes nothing. -/
def summaryParts (d : DiffResult) : List String :=
  (if d.added.isEmpty then [] else
    ["+" ++ toString d.added.length ++ " added"]) ++
  (if d.removed.isEmpty then [] else
    ["-" ++ toString d.removed.length ++ " removed"]) ++
  (if d.modified.isEmpty then [] else
    ["~" ++ toString d.modified.length ++ " modified"]) ++
  (if d.unchanged.isEmpty then [] else
    [toString d.unchanged.length ++ " unchanged"])

/-- The renderer `render_diff_section(app_path, base_graph, head_graph, diff)`
(lines 125–174), line for line: header, early `> No resource or connection
changes.` return, resources table, connections table over the merged
resource dict, trailing summary line. -/
def render_diff_section (app_path : String) (base_graph head_graph : Graph)
    (d : DiffResult) : String :=
  let label0 := pyReplace app_path "/.radius/app-graph.json" ""
  let app_label := if label0 = "" then "(root)" else label0
  let header := "### 📦 `" ++ app_label ++ "`\n"
  if !(hasChanges d) then
    pyJoin "\n" [header, "> No resource or connection changes.\n"]
  else
    let resLines : List String :=
      if d.added.isEmpty && d.removed.isEmpty && d.modified.isEmpty then []
      else
        ["#### Resources\n", "| Status | Resource |", "|--------|----------|"] ++
        (sortBy jsonLe d.added).map (fun rid =>
          "| 🟢 Added | " ++ resource_label (dgetD head_graph.resources rid) ++ " |") ++
        (sortBy jsonLe d.removed).map (fun rid =>
          "| 🔴 Removed | " ++ resource_label (dgetD base_graph.resources rid) ++ " |") ++
        (sortBy jsonLe d.modified).map (fun rid =>
          "| 🟡 Modified | " ++ resource_label (dgetD head_graph.resources rid) ++ " |") ++
        [""]
    let all_res := dictMerge base_graph.resources head_graph.resources
    let connLines : List String :=
      if d.added_conns.isEmpty && d.removed_conns.isEmpty then []
      else
        ["#### Connections\n", "| Status | Connection |", "|--------|------------|"] ++
        (sortBy pairLe d.added_conns).map (fun pr =>
          "| 🟢 Added | " ++ resolve_disp pr.1 all_res ++ " → " ++
            resolve_disp pr.2 all_res ++ " |") ++
        (sortBy pairLe d.removed_conns).map (fun pr =>
          "| 🔴 Removed | " ++ resolve_disp pr.1 all_res ++ " → " ++
            resolve_disp pr.2 all_res ++ " |") ++
        [""]
    pyJoin "\n" ([header] ++ resLines ++ connLines ++
      ["*Resources: " ++ pyJoin ", " (summaryParts d) ++ "*\n"])

/-- The document `render_no_changes()` (lines 177–181). -/
def render_no_changes : String :=
  "## 📊 App Graph Diff\n\nNo app graph changes detected.\n"

/-- The wrapper `render_full_comment(sections)` (lines 184–187). -/
def render_full_comment (sections : List String) : String :=
  "## 📊 App Graph Diff\n\n" ++ pyJoin "\n" sections ++
    "\n---\n*Auto-generated by PR Graph Diff — comparing `.radius/app-graph.json`*\n"

/-- One iteration of the `main` loop (lines 209–217): parse both revisions
of one graph file and render its section.  An unparsable present snapshot
propagates its error. -/
def processFile (loads : String → Option JsonVal)
    (f : String × Option String × Option String) : Except PErr String :=
  match parse_graph loads f.2.1 with
  | .error e => .error e
  | .ok base_graph =>
    match parse_graph loads f.2.2 with
    | .error e => .error e
    | .ok head_graph =>
      .ok (render_diff_section f.1 base_graph head_graph
            (diff_graphs base_graph head_graph))

/-- Sequence the per-file work in order, stopping at the first failure —
the Python loop simply lets the exception escape, so no partial report is
produced. -/
def mapExcept (f : α → Except ε β) : List α → Except ε (List β)
  | [] => .ok []
  | x :: xs =>
    match f x with
    | .error e => .error e
    | .ok y =>
      match mapExcept f xs with
      | .error e => .error e
      | .ok ys => .ok (y :: ys)

/-- The pure core of `main` (lines 202–219): each entry of `files` is
`(path, base-revision content, head-revision content)` with `none` the
absence marker (`git_show` returned nothing).  An empty file list yields
the no-changes document; otherwise every file is parsed, diffed, rendered,
and the sections are wrapped into the full comment. -/
def runDiff (loads : String → Option JsonVal)
    (files : List (String × Option String × Option String)) :
    Except PErr String :=
  if files.isEmpty then .ok render_no_changes
  else
    match mapExcept (processFile loads) files with
    | .error e => .error e
    | .ok sections => .ok (render_full_comment sections)

/-- Suffix test used only to state claims about how a rendered section
ends. -/
def strEndsWith (s suf : String) : Bool :=
  (chopPre suf.data.reverse s.data.reverse).isSome

/-- Substring test used only to state "no table headers appear". -/
def strHas (s pat : String) : Bool :=
  hasSub pat.data s.data
where
  hasSub (pat : List Char) : List Char → Bool
    | [] => (chopPre pat []).isSome
    | c :: cs => (chopPre pat (c :: cs)).isSome || hasSub pat cs

/-! ## Membership lemmas for the diff sets -/

theorem mem_diff_added (base head : Graph) (k : JsonVal) :
    k ∈ (diff_graphs base head).added ↔ k ∈ keysOf head ∧ k ∉ keysOf base := by
  simp [diff_graphs, List.mem_filter]

theorem mem_diff_removed (base head : Graph) (k : JsonVal) :
    k ∈ (diff_graphs base head).removed ↔ k ∈ keysOf base ∧ k ∉ keysOf head := by
  simp [diff_graphs, List.mem_filter]

theorem mem_commonKeys (base head : Graph) (k : JsonVal) :
    k ∈ commonKeys base head ↔ k ∈ keysOf base ∧ k ∈ keysOf head := by
  simp [commonKeys, List.mem_filter]

theorem mem_diff_modified (base head : Graph) (k : JsonVal) :
    k ∈ (diff_graphs base head).modified ↔
      (k ∈ keysOf base ∧ k ∈ keysOf head) ∧
        dumpsEq (dgetD base.resources k) (dgetD head.resources k) = false := by
  simp [diff_graphs, modifiedKeys, List.mem_filter, mem_commonKeys]

theorem mem_diff_unchanged (base head : Graph) (k : JsonVal) :
    k ∈ (diff_graphs base head).unchanged ↔
      (k ∈ keysOf base ∧ k ∈ keysOf head) ∧ k ∉ modifiedKeys base head := by
  simp [diff_graphs, List.mem_filter, mem_commonKeys]

theorem mem_diff_added_conns (base head : Graph) (p : JsonVal × JsonVal) :
    p ∈ (diff_graphs base head).added_conns ↔
      p ∈ head.connections ∧ p ∉ base.connections := by
  simp [diff_graphs, List.mem_dedup, List.mem_filter]

theorem mem_diff_removed_conns (base head : Graph) (p : JsonVal × JsonVal) :
    p ∈ (diff_graphs base head).removed_conns ↔
      p ∈ base.connections ∧ p ∉ head.connections := by
  simp [diff_graphs, List.mem_dedup, List.mem_filter]

/-! ## Claim theorems -/

/-- C1: for every pair of parsed snapshots `base` and `head`,
`diff_graphs` returns `added` equal (as a set) to `head.keys − base.keys`,
`removed` equal to `base.keys − head.keys`, and compares connections as the
raw unresolved `(sourceRef, targetRef)` pairs stored in the snapshots:
`added_conns = head.connections − base.connections` and
`removed_conns = base.connections − head.connections`, with no identity
resolution applied to endpoints (the members are exactly the raw pairs of
the snapshots' connection sets). -/
theorem c1_diff_is_set_difference (base head : Graph) :
    (∀ k, k ∈ (diff_graphs base head).added ↔
        k ∈ keysOf head ∧ k ∉ keysOf base) ∧
    (∀ k, k ∈ (diff_graphs base head).removed ↔
        k ∈ keysOf base ∧ k ∉ keysOf head) ∧
    (∀ p, p ∈ (diff_graphs base head).added_conns ↔
        p ∈ head.connections ∧ p ∉ base.connections) ∧
    (∀ p, p ∈ (diff_graphs base head).removed_conns ↔
        p ∈ base.connections ∧ p ∉ head.connections) :=
  ⟨mem_diff_added base head, mem_diff_removed base head,
   mem_diff_added_conns base head, mem_diff_removed_conns base head⟩

/-- C9: the four resource-key sets of a diff are pairwise disjoint,
their union is the union of the two snapshots' key sets, `added ⊆ head`,
`removed ⊆ base`, and `modified` and `unchanged` are contained in the
intersection of the key sets. -/
theorem c9_diff_sets_partition (base head : Graph) :
    (∀ k, ¬ (k ∈ (diff_graphs base head).added ∧
             k ∈ (diff_graphs base head).removed)) ∧
    (∀ k, ¬ (k ∈ (diff_graphs base head).added ∧
             k ∈ (diff_graphs base head).modified)) ∧
    (∀ k, ¬ (k ∈ (diff_graphs base head).added ∧
             k ∈ (diff_graphs base head).unchanged)) ∧
    (∀ k, ¬ (k ∈ (diff_graphs base head).removed ∧
             k ∈ (diff_graphs base head).modified)) ∧
    (∀ k, ¬ (k ∈ (diff_graphs base head).removed ∧
             k ∈ (diff_graphs base head).unchanged)) ∧
    (∀ k, ¬ (k ∈ (diff_graphs base head).modified ∧
             k ∈ (diff_graphs base head).unchanged)) ∧
    (∀ k, (k ∈ (diff_graphs base head).added ∨
           k ∈ (diff_graphs base head).removed ∨
           k ∈ (diff_graphs base head).modified ∨
           k ∈ (diff_graphs base head).unchanged) ↔
          (k ∈ keysOf base ∨ k ∈ keysOf head)) ∧
    (∀ k, k ∈ (diff_graphs base head).added → k ∈ keysOf head) ∧
    (∀ k, k ∈ (diff_graphs base head).removed → k ∈ keysOf base) ∧
    (∀ k, k ∈ (diff_graphs base head).modified →
        k ∈ keysOf base ∧ k ∈ keysOf head) ∧
    (∀ k, k ∈ (diff_graphs base head).unchanged →
        k ∈ keysOf base ∧ k ∈ keysOf head) := by
  have hmod : ∀ k, k ∈ (diff_graphs base head).modified ↔
      k ∈ modifiedKeys base head := by
    intro k; simp [diff_graphs]
  refine ⟨?_, ?_, ?_, ?_, ?_, ?_, ?_, ?_, ?_, ?_, ?_⟩ <;> intro k <;>
    simp only [mem_diff_added, mem_diff_removed, mem_diff_modified,
      mem_diff_unchanged, mem_commonKeys, ← hmod] <;> tauto

/-! ## Parse-level lemmas -/

/-- Decompose a successful `buildGraph` run into its raw resource and
connection lists. -/
theorem buildGraph_ok {d : JsonVal} {g : Graph} (h : buildGraph d = .ok g) :
    ∃ rs cs, listD (jget d "resources") = .ok rs ∧
      listD (jget d "connections") = .ok cs ∧
      g.resources = mkResources rs ∧ g.connections = mkConns cs := by
  unfold buildGraph at h
  split at h
  · split at h
    · simp at h
    · next rs hrs =>
      split at h
      · simp at h
      · next cs hcs =>
        split at h
        · injection h with h2
          exact ⟨rs, cs, hrs, hcs, by rw [← h2], by rw [← h2]⟩
        · simp at h
  · simp at h

/-- Characterise the connection set of a parsed snapshot: exactly the raw
pairs of the document's non-`dependsOn` connections. -/
theorem mem_connections_buildGraph {d : JsonVal} {g : Graph}
    (h : buildGraph d = .ok g) (p : JsonVal × JsonVal) :
    p ∈ g.connections ↔ ∃ c ∈ rawConnList d,
      jget c "type" ≠ some (.str "dependsOn") ∧ connPair c = p := by
  obtain ⟨rs, cs, hrs, hcs, hres, hcon⟩ := buildGraph_ok h
  rw [hcon]
  simp only [mkConns, rawConnList, hcs, List.mem_map, List.mem_filter,
    Bool.not_eq_eq_eq_not, Bool.not_true, beq_eq_false_iff_ne, ne_eq]
  tauto

/-- C4: no connection whose `type` field is `"dependsOn"` survives into a
parsed snapshot's connection set, hence none into the diff's connection
deltas: every pair in either snapshot's connection set, and a fortiori
every pair in `added_conns` or `removed_conns`, comes from a document
connection whose `type` is not `"dependsOn"` (they are dropped during
construction, lines 46–48, before `diff_graphs` ever sees them). -/
theorem c4_dependsOn_never_in_diff (dbase dhead : JsonVal) (gb gh : Graph)
    (hb : buildGraph dbase = .ok gb) (hh : buildGraph dhead = .ok gh) :
    (∀ p, p ∈ gh.connections ↔ ∃ c ∈ rawConnList dhead,
        jget c "type" ≠ some (.str "dependsOn") ∧ connPair c = p) ∧
    (∀ p, p ∈ gb.connections ↔ ∃ c ∈ rawConnList dbase,
        jget c "type" ≠ some (.str "dependsOn") ∧ connPair c = p) ∧
    (∀ p, p ∈ (diff_graphs gb gh).added_conns → ∃ c ∈ rawConnList dhead,
        jget c "type" ≠ some (.str "dependsOn") ∧ connPair c = p) ∧
    (∀ p, p ∈ (diff_graphs gb gh).removed_conns → ∃ c ∈ rawConnList dbase,
        jget c "type" ≠ some (.str "dependsOn") ∧ connPair c = p) := by
  refine ⟨mem_connections_buildGraph hh, mem_connections_buildGraph hb,
    fun p hp => ?_, fun p hp => ?_⟩
  · exact (mem_connections_buildGraph hh p).1
      ((mem_diff_added_conns gb gh p).1 hp).1
  · exact (mem_connections_buildGraph hb p).1
      ((mem_diff_removed_conns gb gh p).1 hp).1

/-- A head document carrying one `dependsOn` connection `(a, b)` and one
plain connection `(x, y)`. -/
def c4headDoc : JsonVal :=
  .objCons "connections"
    (.arrCons
      (.objCons "type" (.str "dependsOn")
        (.objCons "sourceId" (.str "a") (.objCons "targetId" (.str "b") .objNil)))
      (.arrCons
        (.objCons "sourceId" (.str "x") (.objCons "targetId" (.str "y") .objNil))
        .arrNil))
    .objNil

/-- Parsing `c4headDoc` keeps only the plain connection. -/
def c4headGraph : Graph := ⟨[], [(.str "x", .str "y")]⟩

theorem c4_witness :
    buildGraph c4headDoc = .ok c4headGraph ∧
    ((JsonVal.str "x", JsonVal.str "y") ∈
        (diff_graphs emptyGraph c4headGraph).added_conns →
      ∃ c ∈ rawConnList c4headDoc,
        jget c "type" ≠ some (.str "dependsOn") ∧
          connPair c = (.str "x", .str "y")) :=
  ⟨rfl, (c4_dependsOn_never_in_diff .objNil c4headDoc emptyGraph c4headGraph
    rfl rfl).2.2.1 (.str "x", .str "y")⟩

/-! ## Dict lemmas (last-write-wins and head-precedence) -/

theorem dget?_dictInsert (m : List (JsonVal × JsonVal)) (k v k' : JsonVal) :
    dget? (dictInsert m k v) k' = if k' = k then some v else dget? m k' := by
  induction m with
  | nil =>
    simp only [dictInsert, dget?]
    by_cases h : k = k'
    · subst h; simp
    · rw [if_neg h, if_neg (fun hh => h hh.symm)]
  | cons p ps ih =>
    simp only [dictInsert]
    by_cases hp : p.1 = k
    · rw [if_pos hp]
      simp only [dget?]
      by_cases h : k = k'
      · subst h; simp
      · rw [if_neg h, if_neg (fun hh => h hh.symm), if_neg (fun hh => h (hp ▸ hh))]
    · rw [if_neg hp]
      simp only [dget?]
      by_cases h : p.1 = k'
      · rw [if_pos h, if_pos h, if_neg (fun hh => hp (h.trans hh))]
      · rw [if_neg h, if_neg h, ih]

/-- Looking a key up after a left fold of dict inserts: the last inserted
record under that key wins; failing that, the accumulator's binding. -/
theorem dget?_foldl_insert {α : Type} (key : α → JsonVal) (val : α → JsonVal)
    (l : List α) :
    ∀ (acc : List (JsonVal × JsonVal)) (k : JsonVal),
      dget? (l.foldl (fun m x => dictInsert m (key x) (val x)) acc) k =
        (((l.filter (fun x => key x == k)).getLast?).map val).or (dget? acc k) := by
  induction l with
  | nil => intro acc k; simp
  | cons x xs ih =>
    intro acc k
    rw [List.foldl_cons, ih, dget?_dictInsert]
    by_cases hx : key x = k
    · have hf : List.filter (fun x => key x == k) (x :: xs) =
          x :: xs.filter (fun x => key x == k) := by
        simp [List.filter_cons, hx]
      rw [hf]
      rcases hfx : xs.filter (fun x => key x == k) with _ | ⟨y, ys⟩
      · simp [hfx, hx]
      · rw [hfx] at *
        have : (x :: y :: ys).getLast? = (y :: ys).getLast? := by
          simp [List.getLast?_cons_cons]
        rw [this]
        obtain ⟨z, hz⟩ : ∃ z, (y :: ys).getLast? = some z :=
          ⟨(y :: ys).getLast (by simp), List.getLast?_eq_getLast _ _⟩
        simp [hz]
    · have hf : List.filter (fun x => key x == k) (x :: xs) =
          xs.filter (fun x => key x == k) := by
        simp [List.filter_cons, hx]
      rw [hf, if_neg (fun hh => hx hh.symm)]

/-- Looking up a key in a freshly built resource dict returns the last
document record with that key. -/
theorem dget?_mkResources (rs : List JsonVal) (k : JsonVal) :
    dget? (mkResources rs) k =
      (rs.filter (fun r => resKey r == k)).getLast? := by
  have h := dget?_foldl_insert (fun r => resKey r) (fun r => r) rs [] k
  simpa [mkResources, dget?] using h

/-- C6 (amended): a record's key is the `id` field's value whenever that
field is present — even when its value is the empty string — else the
`name` field's value when present, else `""`; and when several records of
one document share a key, the dict binds the key to the last such record
(silent last-write-wins). -/
theorem c6_resource_keying (d : JsonVal) (g : Graph)
    (h : buildGraph d = .ok g) :
    (∀ k, dget? g.resources k =
        ((rawResList d).filter (fun r => resKey r == k)).getLast?) ∧
    (∀ r v, jget r "id" = some v → resKey r = v) ∧
    (∀ r w, jget r "id" = none → jget r "name" = some w → resKey r = w) ∧
    (∀ r, jget r "id" = none → jget r "name" = none → resKey r = .str "") := by
  obtain ⟨rs, cs, hrs, hcs, hres, hcon⟩ := buildGraph_ok h
  refine ⟨fun k => ?_, fun r v hv => ?_, fun r w h1 h2 => ?_, fun r h1 h2 => ?_⟩
  · rw [hres, dget?_mkResources]; simp [rawResList, hrs]
  · simp [resKey, hv]
  · simp [resKey, h1, h2]
  · simp [resKey, h1, h2]

/-- A document whose two resource records collide on key `"k"`. -/
def c6collideDoc : JsonVal :=
  .objCons "resources"
    (.arrCons (.objCons "id" (.str "k") (.objCons "name" (.str "one") .objNil))
      (.arrCons (.objCons "id" (.str "k") (.objCons "name" (.str "two") .objNil))
        .arrNil))
    .objNil

/-- Parsing `c6collideDoc`: the later record wins the key. -/
def c6collideGraph : Graph :=
  ⟨[(.str "k", .objCons "id" (.str "k") (.objCons "name" (.str "two") .objNil))], []⟩

theorem c6_witness :
    buildGraph c6collideDoc = .ok c6collideGraph ∧
    dget? c6collideGraph.resources (.str "k") =
      ((rawResList c6collideDoc).filter
        (fun r => resKey r == .str "k")).getLast? :=
  ⟨rfl, (c6_resource_keying c6collideDoc c6collideGraph rfl).1 (.str "k")⟩

/-- A document whose single resource has a present-but-empty `id` and the
name `"foo"`. -/
def c6emptyIdDoc : JsonVal :=
  .objCons "resources"
    (.arrCons (.objCons "id" (.str "") (.objCons "name" (.str "foo") .objNil))
      .arrNil)
    .objNil

/-- The record of `c6emptyIdDoc`. -/
def c6emptyIdRec : JsonVal :=
  .objCons "id" (.str "") (.objCons "name" (.str "foo") .objNil)

/-- C6 counterexample: the claim says a record whose `id` field is empty is
keyed by its `name`; the code keys it by the empty `id` value instead
(`r.get("id", ...)` falls back to `name` only when the field is absent, not
when it is empty). -/
theorem c6_counterexample :
    jget c6emptyIdRec "id" = some (.str "") ∧
    buildGraph c6emptyIdDoc = .ok ⟨[(.str "", c6emptyIdRec)], []⟩ ∧
    keysOf ⟨[(.str "", c6emptyIdRec)], []⟩ = [.str ""] ∧
    JsonVal.str "foo" ∉ keysOf ⟨[(.str "", c6emptyIdRec)], []⟩ :=
  ⟨rfl, rfl, rfl, by decide⟩

/-! ## Claim C3: absence vs. malformed input -/

/-- C3 (amended): the absence marker parses to the empty snapshot; a
present but *empty* document is treated by `if not raw:` exactly like
absence and also yields the empty snapshot; a present non-empty document
that fails to parse is a fatal error that propagates through the main loop
and aborts the whole run with no report. -/
theorem c3_absence_vs_malformed (loads : String → Option JsonVal) :
    parse_graph loads none = .ok emptyGraph ∧
    parse_graph loads (some "") = .ok emptyGraph ∧
    (∀ s, s ≠ "" → loads s = none →
      parse_graph loads (some s) = .error .malformed) ∧
    (∀ p s, s ≠ "" → loads s = none →
      runDiff loads [(p, some s, none)] = .error .malformed) := by
  refine ⟨rfl, rfl, fun s hs hl => ?_, fun p s hs hl => ?_⟩
  · simp [parse_graph, hs, hl]
  · simp [runDiff, mapExcept, processFile, parse_graph, hs, hl]

theorem c3_witness :
    ("x" : String) ≠ "" ∧
    parse_graph (fun _ => none) (some "x") = .error .malformed :=
  ⟨by decide, (c3_absence_vs_malformed (fun _ => none)).2.2.1 "x" (by decide) rfl⟩

/-- C3 counterexample: the empty string is a present document that fails
structural parsing (`json.loads("")` raises, here `loads "" = none`), yet
`parse_graph` turns it into the empty snapshot instead of failing. -/
theorem c3_counterexample :
    parse_graph (fun _ => none) (some "") = .ok emptyGraph ∧
    (fun _ => (none : Option JsonVal)) "" = none :=
  ⟨rfl, rfl⟩

/-! ## Claim C10: head precedence in the merged resource dict -/

theorem mem_keys_dictInsert (m : List (JsonVal × JsonVal)) (k v x : JsonVal) :
    x ∈ (dictInsert m k v).map Prod.fst ↔ x ∈ m.map Prod.fst ∨ x = k := by
  induction m with
  | nil => simp [dictInsert]
  | cons p ps ih =>
    simp only [dictInsert]
    by_cases hp : p.1 = k
    · rw [if_pos hp]
      simp only [List.map_cons, List.mem_cons, hp]
      tauto
    · rw [if_neg hp]
      simp only [List.map_cons, List.mem_cons, ih]
      tauto

theorem nodup_keys_dictInsert (m : List (JsonVal × JsonVal)) (k v : JsonVal)
    (h : (m.map Prod.fst).Nodup) : ((dictInsert m k v).map Prod.fst).Nodup := by
  induction m with
  | nil => simp [dictInsert]
  | cons p ps ih =>
    simp only [List.map_cons, List.nodup_cons] at h
    simp only [dictInsert]
    by_cases hp : p.1 = k
    · rw [if_pos hp]
      simp only [List.map_cons, List.nodup_cons]
      exact ⟨hp ▸ h.1, h.2⟩
    · rw [if_neg hp]
      simp only [List.map_cons, List.nodup_cons, mem_keys_dictInsert]
      exact ⟨fun hc => hc.elim h.1 hp, ih h.2⟩

/-- A freshly built resource dict has pairwise distinct keys. -/
theorem nodup_keys_mkResources (rs : List JsonVal) :
    ((mkResources rs).map Prod.fst).Nodup := by
  have hgen : ∀ (l : List JsonVal) (acc : List (JsonVal × JsonVal)),
      (acc.map Prod.fst).Nodup →
      ((l.foldl (fun m r => dictInsert m (resKey r) r) acc).map Prod.fst).Nodup := by
    intro l
    induction l with
    | nil => intro acc h; simpa using h
    | cons r l ih =>
      intro acc h
      exact ih _ (nodup_keys_dictInsert acc (resKey r) r h)
  simpa [mkResources] using hgen rs [] (by simp)

/-- With pairwise distinct keys, the unique record filtered out under a
key is the one `dget?` finds. -/
theorem filter_key_of_nodup (b : List (JsonVal × JsonVal)) (k r : JsonVal)
    (hnd : (b.map Prod.fst).Nodup) (h : dget? b k = some r) :
    b.filter (fun p => p.1 == k) = [(k, r)] := by
  induction b with
  | nil => simp [dget?] at h
  | cons p ps ih =>
    simp only [List.map_cons, List.nodup_cons] at hnd
    simp only [dget?] at h
    by_cases hp : p.1 = k
    · rw [if_pos hp] at h
      injection h with h2
      have hps : ps.filter (fun p => p.1 == k) = [] := by
        rw [List.filter_eq_nil_iff]
        intro q hq hqk
        exact hnd.1 (hp ▸ (beq_iff_eq.mp hqk) ▸ List.mem_map_of_mem Prod.fst hq)
      simp [List.filter_cons, hp, hps, ← h2, Prod.ext_iff]
    · rw [if_neg hp] at h
      simp [List.filter_cons, hp, ih hnd.2 h]

/-- Lookup in `{**a, **b}`: any key bound in `b` (with distinct keys in
`b`) resolves to its `b` record, regardless of `a`. -/
theorem dget?_dictMerge_right (a b : List (JsonVal × JsonVal)) (k r : JsonVal)
    (hnd : (b.map Prod.fst).Nodup) (h : dget? b k = some r) :
    dget? (dictMerge a b) k = some r := by
  have hm := dget?_foldl_insert (fun p : JsonVal × JsonVal => p.1)
    (fun p : JsonVal × JsonVal => p.2) b a k
  have hmerge : dget? (dictMerge a b) k =
      (((b.filter (fun p => p.1 == k)).getLast?).map Prod.snd).or (dget? a k) := hm
  rw [hmerge, filter_key_of_nodup b k r hnd h]
  simp

/-- C10: when the renderer resolves connection endpoints over
`{**base_resources, **head_resources}` (line 151), a key bound in the head
snapshot resolves to the head snapshot's record — head wins on collision —
so the endpoint displays under the head-side `name`. -/
theorem c10_head_precedence_in_render (dbase dhead : JsonVal) (gb gh : Graph)
    (_hb : buildGraph dbase = .ok gb) (hh : buildGraph dhead = .ok gh)
    (k r v : JsonVal)
    (hk : dget? gh.resources k = some r) (hname : jget r "name" = some v) :
    resolve_disp k (dictMerge gb.resources gh.resources) = pyStr v := by
  obtain ⟨rs, cs, hrs, hcs, hres, hcon⟩ := buildGraph_ok hh
  have hnd : ((gh.resources).map Prod.fst).Nodup := by
    rw [hres]; exact nodup_keys_mkResources rs
  have hmerge : dget? (dictMerge gb.resources gh.resources) k = some r :=
    dget?_dictMerge_right gb.resources gh.resources k r hnd hk
  cases k <;> simp [resolve_disp, resolve_name, hmerge, hname]

/-- Base document: resource keyed `"k"` named `"old"`. -/
def c10baseDoc : JsonVal :=
  .objCons "resources"
    (.arrCons (.objCons "id" (.str "k") (.objCons "name" (.str "old") .objNil))
      .arrNil)
    .objNil

/-- Head document: same key `"k"`, renamed `"new"`. -/
def c10headDoc : JsonVal :=
  .objCons "resources"
    (.arrCons (.objCons "id" (.str "k") (.objCons "name" (.str "new") .objNil))
      .arrNil)
    .objNil

/-- Parsed base snapshot of `c10baseDoc`. -/
def c10baseGraph : Graph :=
  ⟨[(.str "k", .objCons "id" (.str "k") (.objCons "name" (.str "old") .objNil))], []⟩

/-- Parsed head snapshot of `c10headDoc`. -/
def c10headGraph : Graph :=
  ⟨[(.str "k", .objCons "id" (.str "k") (.objCons "name" (.str "new") .objNil))], []⟩

theorem c10_witness :
    buildGraph c10baseDoc = .ok c10baseGraph ∧
    buildGraph c10headDoc = .ok c10headGraph ∧
    resolve_disp (.str "k")
      (dictMerge c10baseGraph.resources c10headGraph.resources) = "new" :=
  ⟨rfl, rfl,
    c10_head_precedence_in_render c10baseDoc c10headDoc c10baseGraph c10headGraph
      rfl rfl (.str "k")
      (.objCons "id" (.str "k") (.objCons "name" (.str "new") .objNil))
      (.str "new") rfl rfl⟩

/-! ## Claims C2 and C5: the identity resolver -/

theorem strMk_ne_empty (l : List Char) (hl : l ≠ []) : String.mk l ≠ "" := by
  intro h
  exact hl (by simpa using congrArg String.data h)

/-- A successful ARM match captures a non-empty symbol (`\w+`). -/
theorem armMatch_ne_empty {s y : String} (h : armMatch s = some y) : y ≠ "" := by
  unfold armMatch at h
  split at h
  · simp at h
  · split at h
    · next hc =>
      injection h with h2
      exact h2 ▸ strMk_ne_empty _ hc.1
    · simp at h

/-- A successful URL match captures a non-empty hostname (`[^:/]+`). -/
theorem urlMatch_ne_empty {s y : String} (h : urlMatch s = some y) : y ≠ "" := by
  unfold urlMatch at h
  split at h
  · simp at h
  · split at h
    · simp at h
    · split at h
      · next hc =>
        injection h with h2
        exact h2 ▸ strMk_ne_empty _ hc
      · simp at h

theorem urlMatch_probe : urlMatch "http://backend:3000" = some "backend" := rfl

theorem takeWhile_dropWhile_slash (l : List Char)
    (h : l.dropWhile (fun c => c = '/') ≠ []) :
    (l.dropWhile (fun c => c = '/')).takeWhile (fun c => c ≠ '/') ≠ [] := by
  induction l with
  | nil => simp [List.dropWhile] at h
  | cons c cs ih =>
    by_cases hc : c = '/'
    · rw [List.dropWhile_cons_of_pos (by simp [hc])] at h ⊢
      exact ih h
    · rw [List.dropWhile_cons_of_neg (by simp [hc])]
      simp [List.takeWhile_cons, hc]

/-- The final path segment of a string containing a non-slash character is
non-empty. -/
theorem lastSegment_ne_empty {s : String} (h : ∃ c ∈ s.data, c ≠ '/') :
    lastSegment s ≠ "" := by
  obtain ⟨c, hc, hcs⟩ := h
  unfold lastSegment
  apply strMk_ne_empty
  simp only [ne_eq, List.reverse_eq_nil_iff]
  apply takeWhile_dropWhile_slash
  intro hnil
  rw [List.dropWhile_eq_nil_iff] at hnil
  exact hcs (by simpa using hnil c (by simpa using hc))

/-- C2 (amended): for a reference of `http(s)://host...` shape that is not
an exact resource key and not an ARM expression, `resolve_name` extracts
the hostname and returns it unchanged: the scan over resources (lines
82–84) tests only for a name *exactly equal* to the hostname and returns
the hostname in both the found and the not-found arm, so no resource name
— substring-related or not — is ever returned for a URL reference. -/
theorem c2_url_returns_hostname (ref : String) (M : List (JsonVal × JsonVal))
    (host : String) (h1 : dget? M (.str ref) = none)
    (h2 : armMatch ref = none) (h3 : urlMatch ref = some host) :
    resolve_name ref M = host := by
  simp [resolve_name, h1, h2, h3]

/-- The resource record named `backend-api` from the claim's scenario. -/
def c2res : JsonVal := .objCons "name" (.str "backend-api") .objNil

/-- A snapshot resource dict holding only `backend-api`. -/
def c2M : List (JsonVal × JsonVal) := [(.str "backend-api", c2res)]

theorem c2_witness :
    dget? c2M (.str "http://backend:3000") = none ∧
    armMatch "http://backend:3000" = none ∧
    urlMatch "http://backend:3000" = some "backend" ∧
    resolve_name "http://backend:3000" c2M = "backend" :=
  ⟨rfl, rfl, rfl,
    c2_url_returns_hostname "http://backend:3000" c2M "backend" rfl rfl rfl⟩

/-- C2 counterexample: the claim predicts the substring match
`resolve("http://backend:3000", {name: "backend-api"}) = "backend-api"`;
the code returns the bare hostname `"backend"`. -/
theorem c2_counterexample :
    resolve_name "http://backend:3000" c2M = "backend" ∧
    ("backend" : String) ≠ "backend-api" :=
  ⟨by decide, by decide⟩

/-- C5 (amended): `resolve_name` is a pure total function (hence
deterministic and never raising), and it returns a non-empty string for
every non-empty reference *except* in two corner cases the code permits:
a reference consisting solely of `/` characters (the final-path-segment
fallback strips every character), and a reference that is an exact key of
a record whose `name` field displays as the empty string. -/
theorem c5_resolve_nonempty (ref : String) (M : List (JsonVal × JsonVal))
    (h0 : ref ≠ "") (h1 : ∃ c ∈ ref.data, c ≠ '/')
    (h2 : ∀ r v, dget? M (.str ref) = some r → jget r "name" = some v →
      pyStr v ≠ "") :
    resolve_name ref M ≠ "" := by
  rcases hd : dget? M (.str ref) with _ | r
  · rcases ha : armMatch ref with _ | sym
    · rcases hu : urlMatch ref with _ | host
      · simpa [resolve_name, hd, ha, hu] using lastSegment_ne_empty h1
      · simpa [resolve_name, hd, ha, hu] using urlMatch_ne_empty hu
    · simpa [resolve_name, hd, ha] using armMatch_ne_empty ha
  · rcases hn : jget r "name" with _ | v
    · simpa [resolve_name, hd, hn] using h0
    · simpa [resolve_name, hd, hn] using h2 r v hd hn

theorem c5_witness :
    ("services/api" : String) ≠ "" ∧ resolve_name "services/api" [] ≠ "" :=
  ⟨by decide,
    c5_resolve_nonempty "services/api" [] (by decide) (by decide)
      (fun r v hr _ => by simp [dget?] at hr)⟩

/-- C5 counterexample: `"/"` is a non-empty reference for which
`resolve_name` returns the empty string (`rstrip("/")` erases it and the
final path segment is empty). -/
theorem c5_counterexample :
    ("/" : String) ≠ "" ∧ resolve_name "/" [] = "" :=
  ⟨by decide, rfl⟩

/-! ## Claims C7 and C8: the renderer -/

theorem str_append_assoc (a b c : String) : a ++ b ++ c = a ++ (b ++ c) := by
  apply String.ext
  simp [String.data_append, List.append_assoc]

theorem str_empty_append (s : String) : "" ++ s = s := by
  apply String.ext
  simp [String.data_append]

/-- Joining a list that ends in `x` produces a string that ends in `x`. -/
theorem pyJoin_concat (sep : String) (l : List String) (x : String) :
    ∃ t, pyJoin sep (l ++ [x]) = t ++ x := by
  induction l with
  | nil => exact ⟨"", by simp [pyJoin, str_empty_append]⟩
  | cons a l ih =>
    cases l with
    | nil => exact ⟨a ++ sep, by simp [pyJoin, str_append_assoc]⟩
    | cons b l2 =>
      obtain ⟨t, ht⟩ := ih
      rw [List.cons_append] at ht
      refine ⟨a ++ sep ++ t, ?_⟩
      have hstep : pyJoin sep (a :: b :: (l2 ++ [x])) =
          a ++ sep ++ pyJoin sep (b :: (l2 ++ [x])) := by
        simp [pyJoin]
      rw [List.cons_append, List.cons_append, hstep, ht, ← str_append_assoc]

/-- C8 (amended): whenever a diff has any added, removed or modified
resource or any connection delta, its rendered section ends with the
trailing summary line `*Resources: <parts>*` where `<parts>` lists, comma
separated and in the fixed order added / removed / modified / unchanged,
only the counts of the *non-empty* sets — a zero count is omitted rather
than printed (lines 163–172 guard each piece with the set's truthiness). -/
theorem c8_summary_line (app_path : String) (bg hg : Graph) (d : DiffResult)
    (h : hasChanges d = true) :
    ∃ t, render_diff_section app_path bg hg d =
      t ++ ("*Resources: " ++ pyJoin ", " (summaryParts d) ++ "*\n") := by
  unfold render_diff_section
  rw [h]
  simp only [Bool.not_true, Bool.false_eq_true, if_false]
  exact pyJoin_concat "\n" _ _

/-- A head snapshot with a single resource, used to exercise the summary
line. -/
def c8head : Graph :=
  ⟨[(.str "r1", .objCons "name" (.str "frontend") .objNil)], []⟩

theorem c8_witness :
    hasChanges (diff_graphs emptyGraph c8head) = true ∧
    ∃ t, render_diff_section "x" emptyGraph c8head (diff_graphs emptyGraph c8head) =
      t ++ ("*Resources: " ++
        pyJoin ", " (summaryParts (diff_graphs emptyGraph c8head)) ++ "*\n") :=
  ⟨rfl, c8_summary_line "x" emptyGraph c8head (diff_graphs emptyGraph c8head) rfl⟩

/-- C8 counterexample: for a diff with one added resource and nothing
else, the section ends with `*Resources: +1 added*` — it does not report
the removed, modified and unchanged counts, contradicting the claimed
fixed four-count form `*Resources: +N added, -N removed, ~N modified,
N unchanged*` (any line of that form would end in ` unchanged*`). -/
theorem c8_counterexample :
    strEndsWith
      (render_diff_section "x" emptyGraph c8head (diff_graphs emptyGraph c8head))
      "*Resources: +1 added*\n" = true ∧
    strEndsWith
      (render_diff_section "x" emptyGraph c8head (diff_graphs emptyGraph c8head))
      " unchanged*\n" = false :=
  ⟨by decide, by decide⟩

/-- C7 (amended): the single-line "no app graph changes detected" document
is emitted exactly when the list of compared files is empty; when files
*are* compared but base and head snapshots are absent for each of them,
the output is instead the full comment wrapper containing one
"No resource or connection changes." section per file (and the no-changes
document itself contains no table header). -/
theorem c7_no_changes_document (loads : String → Option JsonVal)
    (files : List (String × Option String × Option String))
    (habs : ∀ f ∈ files, f.2.1 = none ∧ f.2.2 = none) :
    runDiff loads files =
      .ok (if files.isEmpty then render_no_changes
        else render_full_comment (files.map (fun f =>
          render_diff_section f.1 emptyGraph emptyGraph
            (diff_graphs emptyGraph emptyGraph)))) ∧
    strHas render_no_changes "| Status |" = false := by
  refine ⟨?_, by decide⟩
  have hmap : ∀ (fs : List (String × Option String × Option String)),
      (∀ f ∈ fs, f.2.1 = none ∧ f.2.2 = none) →
      mapExcept (processFile loads) fs = .ok (fs.map (fun f =>
        render_diff_section f.1 emptyGraph emptyGraph
          (diff_graphs emptyGraph emptyGraph))) := by
    intro fs
    induction fs with
    | nil => intro _; rfl
    | cons f fs ih =>
      intro hall
      have hf := hall f (List.mem_cons_self f fs)
      have hrest := ih (fun g hg => hall g (List.mem_cons_of_mem f hg))
      simp [mapExcept, processFile, hf.1, hf.2, parse_graph, hrest]
  cases files with
  | nil => rfl
  | cons f fs =>
    simp [runDiff, hmap (f :: fs) habs]

/-- One compared file, absent at both revisions. -/
def c7files : List (String × Option String × Option String) :=
  [("a", none, none)]

theorem c7_witness :
    (∀ f ∈ c7files, f.2.1 = none ∧ f.2.2 = none) ∧
    (runDiff (fun _ => none) c7files =
      .ok (if c7files.isEmpty then render_no_changes
        else render_full_comment (c7files.map (fun f =>
          render_diff_section f.1 emptyGraph emptyGraph
            (diff_graphs emptyGraph emptyGraph)))) ∧
     strHas render_no_changes "| Status |" = false) :=
  ⟨by decide, c7_no_changes_document (fun _ => none) c7files (by decide)⟩

theorem c1_witness :
    JsonVal.str "r1" ∈ (diff_graphs emptyGraph c8head).added ↔
      JsonVal.str "r1" ∈ keysOf c8head ∧ JsonVal.str "r1" ∉ keysOf emptyGraph :=
  (c1_diff_is_set_difference emptyGraph c8head).1 (.str "r1")

theorem c9_witness :
    ¬ (JsonVal.str "r1" ∈ (diff_graphs emptyGraph c8head).added ∧
       JsonVal.str "r1" ∈ (diff_graphs emptyGraph c8head).removed) :=
  (c9_diff_sets_partition emptyGraph c8head).1 (.str "r1")

/-- C7 counterexample: with one compared file whose snapshots are both
absent, the output is the full comment with a per-file "no changes"
section, not the single-line no-changes document the claim promises. -/
theorem c7_counterexample :
    runDiff (fun _ => none) [("a", none, none)] =
      .ok (render_full_comment [render_diff_section "a" emptyGraph emptyGraph
        (diff_graphs emptyGraph emptyGraph)]) ∧
    render_full_comment [render_diff_section "a" emptyGraph emptyGraph
      (diff_graphs emptyGraph emptyGraph)] ≠ render_no_changes :=
  ⟨rfl, by decide⟩

end GraphDiff
